import Mathlib

/-
Verification of the dukascopy-1s gap-reconciliation and consolidation engine.

Shallow embedding of the python sources:
  src/daily_ingest.py            (convert_to_parquet, ingest_symbol)
  src/backfill_missing.py        (ingest_symbol_backfill, main gap dispatch)
  src/yearly_consolidation.py    (get_last_consolidated_date,
                                  get_daily_files_to_process, process_symbol_year)
  src/historical_consolidation_script.py (same consolidation logic, per target year)
  src/update_instruments_metadata.py (get_latest_date_for_symbol, update loop)

Dates are modelled as natural numbers of days since epoch, timestamps as
natural numbers of seconds since epoch; the date of a timestamp is whole-day
floor division, matching the sources where `latest_ts.date()` floors a UTC
datetime to its calendar date.  OHLCV values only ever flow through casts and
full-row equality in the sources, so they are modelled as integers.
-/

def secondsPerDay : Nat := 86400

/-- Calendar date (days since epoch) of an epoch-seconds timestamp, the
model of `.date()` on a UTC datetime. -/
def dateOfTs (ts : Nat) : Nat := ts / secondsPerDay

/-- One canonical stored row, the fixed column set produced by
`convert_to_parquet` in src/daily_ingest.py: symbol, timestamp, unix_time,
open, high, low, close, volume.  (`open` is a Lean keyword, hence `open_`.) -/
structure Row where
  symbol : String
  timestamp : Nat
  unix_time : Nat
  open_ : Int
  high : Int
  low : Int
  close : Int
  volume : Int
deriving DecidableEq

/-- A parquet data frame as the consolidation scripts see it: the schema's
column names plus the rows.  The five numeric columns may be absent from
`cols` (the daily normalizer casts only columns that are present). -/
structure PFrame where
  cols : List String
  rows : List Row
deriving DecidableEq

/-- The five numeric columns that `process_symbol_year` casts with
`pl.col(...).cast(pl.Float64)` in src/yearly_consolidation.py lines 197-203;
polars raises if any of them is absent from the frame. -/
def requiredNumericCols : List String := ["open", "high", "low", "close", "volume"]

/-- Whether the defensive cast of the five numeric columns succeeds on a
frame: every required column must be present in its schema. -/
def cast_ok (f : PFrame) : Bool := requiredNumericCols.all (fun c => f.cols.contains c)

/-- Maximum timestamp of a list of rows (`df["timestamp"].max()`); 0 on the
empty list, which the sources never reach (they test emptiness first). -/
def maxTs (rows : List Row) : Nat := rows.foldr (fun r m => max r.timestamp m) 0

/-- src/yearly_consolidation.py get_last_consolidated_date: read the yearly
file's timestamp column; None if the file is absent or empty, else the
calendar date of the maximum timestamp. -/
def get_last_consolidated_date (yearly : Option PFrame) : Option Nat :=
  match yearly with
  | none => none
  | some f => if f.rows.isEmpty then none else some (dateOfTs (maxTs f.rows))

/-- The date filter of get_daily_files_to_process: keep a daily directory
date `d` when there is no start date, or when `start_date < d` (the source's
`start_date is None or file_date > start_date`). -/
def afterStart (start : Option Nat) (d : Nat) : Bool :=
  match start with
  | none => true
  | some s => decide (s < d)

/-- Order on daily files by date; the source returns `sorted(daily_files)`
whose paths embed the ISO date, so path order is date order. -/
def dailyLE (a b : Nat × PFrame) : Prop := a.1 ≤ b.1

instance : DecidableRel dailyLE := fun a b => Nat.decLe a.1 b.1

instance : IsTotal (Nat × PFrame) dailyLE := ⟨fun a b => Nat.le_total a.1 b.1⟩

instance : IsTrans (Nat × PFrame) dailyLE := ⟨fun _ _ _ h1 h2 => Nat.le_trans h1 h2⟩

/-- src/yearly_consolidation.py get_daily_files_to_process: enumerate the
symbol's daily partitions for the target year (modelled as the `dailies`
listing), keep only those strictly after `start`, and return them sorted. -/
def get_daily_files_to_process (dailies : List (Nat × PFrame)) (start : Option Nat) :
    List (Nat × PFrame) :=
  List.insertionSort dailyLE (dailies.filter (fun p => afterStart start p.1))

/-- Row order used by `combined_df.sort('timestamp')`. -/
def tsLE (a b : Row) : Prop := a.timestamp ≤ b.timestamp

instance : DecidableRel tsLE := fun a b => Nat.decLe a.timestamp b.timestamp

instance : IsTotal Row tsLE := ⟨fun a b => Nat.le_total a.timestamp b.timestamp⟩

instance : IsTrans Row tsLE := ⟨fun _ _ _ h1 h2 => Nat.le_trans h1 h2⟩

/-- Ascending sort by timestamp, the model of `.sort('timestamp')`. -/
def sort_rows (rows : List Row) : List Row := List.insertionSort tsLE rows

/-- The filesystem state one `process_symbol_year` call works on: the
yearly parquet for the (symbol, year), if present, and the daily partitions
(directory date, frame) matching the year glob under the symbol. -/
structure YearStore where
  yearly : Option PFrame
  dailies : List (Nat × PFrame)
deriving DecidableEq

/-- The daily files one `process_symbol_year` call selects: those strictly
after the last consolidated date recomputed from the yearly file. -/
def daily_files_of (st : YearStore) : List (Nat × PFrame) :=
  get_daily_files_to_process st.dailies (get_last_consolidated_date st.yearly)

/-- Rows of the existing yearly file, empty when the file is absent (the
source merges with the existing data exactly when `dst_file.exists()`). -/
def existing_rows (st : YearStore) : List Row :=
  match st.yearly with
  | none => []
  | some ex => ex.rows

/-- `pl.concat([existing_df, new_data])`: existing yearly rows first, then
the selected daily files' rows in selection order. -/
def combined_rows (st : YearStore) : List Row :=
  existing_rows st ++ ((daily_files_of st).map (fun p => p.2.rows)).flatten

/-- `combined_df.sort('timestamp').unique().collect()`: ascending sort by
timestamp, then removal of exact duplicate rows (full-row equality). -/
def final_rows_of (st : YearStore) : List Row := (sort_rows (combined_rows st)).dedup

/-- Schema of the written yearly file: the concatenation keeps the schema of
its first input (the existing yearly frame when present, else the first
selected daily frame). -/
def out_cols_of (st : YearStore) : List String :=
  match st.yearly with
  | some ex => ex.cols
  | none => ((daily_files_of st).headD (0, { cols := [], rows := [] })).2.cols

/-- Whether the defensive `pl.col(...).cast(pl.Float64)` of every input
frame (each selected daily file, plus the existing yearly frame when it is
merged) succeeds; a missing required column raises at `.collect()`. -/
def casts_ok (st : YearStore) : Bool :=
  (daily_files_of st).all (fun p => cast_ok p.2) &&
  (match st.yearly with | none => true | some ex => cast_ok ex)

/-- src/yearly_consolidation.py process_symbol_year lines 166-239 (and the
identical function of src/historical_consolidation_script.py): recompute the
last consolidated date from the yearly file, select the daily files strictly
after it; if none, return without touching anything.  Otherwise cast the
five numeric columns of every input — a missing column raises, lands in the
`except` handler and leaves the store unchanged — then concatenate existing
yearly rows with the new daily rows, sort by timestamp, remove exact
duplicate rows and write the result back to the yearly path.  Returns the
new store plus `some record_count` when a write happened, `none` when the
run was a no-op or failed. -/
def process_symbol_year (st : YearStore) : YearStore × Option Nat :=
  if (daily_files_of st).isEmpty then (st, none)
  else if casts_ok st then
    ({ st with yearly := some { cols := out_cols_of st, rows := final_rows_of st } },
     some (final_rows_of st).length)
  else (st, none)

theorem mem_sort_rows {r : Row} {l : List Row} : r ∈ sort_rows l ↔ r ∈ l :=
  (List.perm_insertionSort tsLE l).mem_iff

theorem mem_final_rows {r : Row} {l : List Row} : r ∈ (sort_rows l).dedup ↔ r ∈ l := by
  rw [List.mem_dedup]; exact mem_sort_rows

theorem le_maxTs {r : Row} {l : List Row} (h : r ∈ l) : r.timestamp ≤ maxTs l := by
  induction l with
  | nil => cases h
  | cons a t ih =>
    rcases List.mem_cons.mp h with h1 | h2
    · subst h1; exact Nat.le_max_left _ _
    · exact Nat.le_trans (ih h2) (Nat.le_max_right _ _)

theorem maxTs_cons {a : Row} {t : List Row} : maxTs (a :: t) = max a.timestamp (maxTs t) :=
  rfl

theorem maxTs_mem {l : List Row} (h : l ≠ []) : ∃ r ∈ l, maxTs l = r.timestamp := by
  induction l with
  | nil => exact absurd rfl h
  | cons a t ih =>
    cases t with
    | nil =>
      refine ⟨a, List.mem_cons_self _ _, ?_⟩
      simp [maxTs]
    | cons b u =>
      rcases ih (by simp) with ⟨r, hr, hmax⟩
      rcases Nat.le_total (maxTs (b :: u)) a.timestamp with hle | hle
      · exact ⟨a, List.mem_cons_self _ _, by rw [maxTs_cons, Nat.max_eq_left hle]⟩
      · exact ⟨r, List.mem_cons_of_mem _ hr, by rw [maxTs_cons, Nat.max_eq_right hle, hmax]⟩

theorem maxTs_le_maxTs {l l' : List Row} (h : l ≠ []) (hsub : ∀ r ∈ l, r ∈ l') :
    maxTs l ≤ maxTs l' := by
  rcases maxTs_mem h with ⟨r, hr, hmax⟩
  rw [hmax]
  exact le_maxTs (hsub r hr)

theorem dateOfTs_mono {a b : Nat} (h : a ≤ b) : dateOfTs a ≤ dateOfTs b :=
  Nat.div_le_div_right h

/-
Ingestion, src/daily_ingest.py and src/backfill_missing.py.
-/

/-- One raw CSV row as pandas parses it.  `ts` is the outcome of parsing the
row's timestamp cell with `pd.to_datetime(..., format="%Y-%m-%d %H:%M",
utc=True)`: `some` epoch seconds, or `none` when the cell is unparsable.
The numeric cells are carried alongside (meaningful only for the columns
actually present in the frame's schema). -/
structure RawRow where
  ts : Option Nat
  open_ : Int
  high : Int
  low : Int
  close : Int
  volume : Int
deriving DecidableEq

/-- A raw CSV table as returned by the downloader: its column names and its
rows. -/
structure RawCsv where
  cols : List String
  rows : List RawRow
deriving DecidableEq

/-- The failure modes of normalization: `df['timestamp']` on a frame without
that column raises, and `pd.to_datetime` raises on an unparsable cell. -/
inductive SchemaError where
  | missing_timestamp
  | unparsable_timestamp
deriving DecidableEq

/-- Output column order of convert_to_parquet: `symbol` inserted at
position 0, `unix_time` moved to directly after `timestamp`. -/
def out_cols (cols : List String) : List String :=
  "symbol" :: cols.foldr
    (fun c acc => if c = "timestamp" then c :: "unix_time" :: acc else c :: acc) []

/-- src/daily_ingest.py convert_to_parquet lines 40-71 (the same function
appears in src/backfill_missing.py): cast each of the five numeric columns
that is present (a missing one is simply skipped), parse the timestamp
column as UTC — raising SchemaError if the column is absent or any cell is
unparsable — derive unix epoch seconds from it, and inject the symbol
column.  The numeric casts are value-preserving here, so the output rows
just carry the raw values. -/
def convert_to_parquet (csv : RawCsv) (symbol : String) : Except SchemaError PFrame :=
  if "timestamp" ∈ csv.cols then
    if csv.rows.all (fun r => r.ts.isSome) then
      Except.ok
        { cols := out_cols csv.cols,
          rows := csv.rows.map (fun r =>
            { symbol := symbol,
              timestamp := r.ts.getD 0,
              unix_time := r.ts.getD 0,
              open_ := r.open_, high := r.high, low := r.low,
              close := r.close, volume := r.volume }) }
    else Except.error SchemaError.unparsable_timestamp
  else Except.error SchemaError.missing_timestamp

/-- What one `run_dukascopy` invocation plus the CSV check can produce for a
date: the subprocess exits non-zero (CalledProcessError), the CSV file is
absent, the CSV file exists but has size zero, or a non-empty CSV. -/
inductive FetchOutcome where
  | procError
  | noCsv
  | emptyCsv
  | csv (c : RawCsv)
deriving DecidableEq

/-- Per-date ingestion outcome, the spec's
`Outcome ∈ {Written, AlreadyPresent, NoData, Failed}`. -/
inductive Outcome where
  | Written
  | AlreadyPresent
  | NoData
  | Failed
deriving DecidableEq

instance {ε α : Type} [DecidableEq ε] [DecidableEq α] : DecidableEq (Except ε α)
  | Except.error e, Except.error f =>
    if h : e = f then isTrue (by rw [h]) else isFalse (fun hh => h (by cases hh; rfl))
  | Except.error _, Except.ok _ => isFalse (fun hh => Except.noConfusion hh)
  | Except.ok _, Except.error _ => isFalse (fun hh => Except.noConfusion hh)
  | Except.ok x, Except.ok y =>
    if h : x = y then isTrue (by rw [h]) else isFalse (fun hh => h (by cases hh; rfl))

/-- The daily partition store of one symbol: date keyed parquet frames. -/
def DStore : Type := List (Nat × PFrame)

instance : DecidableEq DStore := fun a b => List.hasDecEq a b

/-- Existence/content lookup at a date, modelling `parquet_path.exists()`
and the partition's content at that path. -/
def lookupDate (store : DStore) (d : Nat) : Option PFrame :=
  match store with
  | [] => none
  | (d', f) :: rest => if d' = d then some f else lookupDate rest d

/-- Publishing a partition at a date's final path. -/
def insertDate (store : DStore) (d : Nat) (f : PFrame) : DStore := (d, f) :: store

/-- The body of the per-date loop of src/daily_ingest.py ingest_symbol
lines 133-159: skip when the parquet already exists; otherwise run the
downloader — a CalledProcessError is caught (Failed for this date only), an
absent or zero-size CSV is a skip (NoData), and a good CSV is converted and
written.  Only subprocess.CalledProcessError is caught by the loop, so a
SchemaError from convert_to_parquet propagates as `Except.error`. -/
def ingest_date (fetch : Nat → FetchOutcome) (store : DStore) (symbol : String)
    (d : Nat) : Except SchemaError (Outcome × DStore) :=
  if (lookupDate store d).isSome then Except.ok (Outcome.AlreadyPresent, store)
  else
    match fetch d with
    | FetchOutcome.procError => Except.ok (Outcome.Failed, store)
    | FetchOutcome.noCsv => Except.ok (Outcome.NoData, store)
    | FetchOutcome.emptyCsv => Except.ok (Outcome.NoData, store)
    | FetchOutcome.csv c =>
      match convert_to_parquet c symbol with
      | Except.ok f => Except.ok (Outcome.Written, insertDate store d f)
      | Except.error e => Except.error e

/-- src/daily_ingest.py ingest_symbol's date loop over an ascending date
range: each date is processed in turn; an uncaught exception (SchemaError)
aborts the remaining dates, leaving the store as written so far.  Returns
the final store, the outcomes of the processed dates, and the escaped
exception if any. -/
def ingest_symbol (fetch : Nat → FetchOutcome) (symbol : String) :
    DStore → List Nat → DStore × List Outcome × Option SchemaError
  | store, [] => (store, [], none)
  | store, d :: ds =>
    match ingest_date fetch store symbol d with
    | Except.error e => (store, [], some e)
    | Except.ok (o, store') =>
      let r := ingest_symbol fetch symbol store' ds
      (r.1, o :: r.2.1, r.2.2)

/-- The body of the per-date loop of src/backfill_missing.py
ingest_symbol_backfill lines 83-107: skip when the parquet exists; run the
downloader and convert when the CSV exists; the whole body is wrapped in
`except Exception`, so every failure (including a SchemaError) is printed
and the loop continues. -/
def backfill_step (fetch : Nat → FetchOutcome) (symbol : String) (store : DStore)
    (d : Nat) : DStore :=
  if (lookupDate store d).isSome then store
  else
    match fetch d with
    | FetchOutcome.csv c =>
      match convert_to_parquet c symbol with
      | Except.ok f => insertDate store d f
      | Except.error _ => store
    | _ => store

/-- src/backfill_missing.py ingest_symbol_backfill's while loop: visit every
date of the half-open range in ascending order, never aborting. -/
def ingest_symbol_backfill (fetch : Nat → FetchOutcome) (symbol : String) :
    DStore → List Nat → DStore
  | store, [] => store
  | store, d :: ds =>
    ingest_symbol_backfill fetch symbol (backfill_step fetch symbol store d) ds

/-- The dates visited by the `while current < earliest_available` loop of
ingest_symbol_backfill, starting at `earliest_required` and stepping one day. -/
def backfill_dates (er ea : Nat) : List Nat :=
  if er < ea then er :: backfill_dates (er + 1) ea else []
termination_by ea - er
decreasing_by omega

/-- src/backfill_missing.py main lines 109-125, the per-symbol gap dispatch:
with no existing dates, backfill every date from `earliest_required` up to
(but excluding) today; otherwise backfill `[earliest_required,
min(existing))` when the head of history is missing, else nothing. -/
def compute_gaps (earliest_required : Nat) (existing : List Nat) (today : Nat) :
    List Nat :=
  match existing with
  | [] => backfill_dates earliest_required today
  | e :: es =>
    let earliest_available := es.foldr min e
    if earliest_required < earliest_available then
      backfill_dates earliest_required earliest_available
    else []

/-
Physical write model, for the atomicity claim.  Both writers pass the FINAL
destination path to the library writer — `df.to_parquet(str(
output_parquet_path))` in src/daily_ingest.py line 71 and
`final_df.write_parquet(dst_file)` in src/yearly_consolidation.py line 233 —
with no temporary path, rename or replace anywhere in the repository.  A
non-atomic file write that crashes after `k` rows therefore leaves a
truncated file at the final path.
-/

/-- Contents found at the final path after writing `rows` there directly:
the full file, or — when the process crashes after `k` rows — the truncated
prefix. `crash_after = none` means no crash. -/
def write_parquet_at (rows : List Row) (crash_after : Option Nat) : Option (List Row) :=
  match crash_after with
  | none => some rows
  | some k => some (rows.take k)

/-- The visibility signal every reader uses: `path.exists()`. -/
def file_exists (f : Option (List Row)) : Bool := f.isSome

/-
Metadata synchronisation, src/update_instruments_metadata.py.
-/

/-- What scanning one year of a symbol's yearly store can show:
no listing or no matching yearly file for that year; a file that is listed
but whose download/read raises; a readable file without any date-like
column; or a readable file with its timestamp column. -/
inductive YearScan where
  | absent
  | unreadable
  | readableNoDateCol
  | readable (ts : List Nat)
deriving DecidableEq

/-- The value get_latest_date_for_symbol reports for an instrument: the
actual latest calendar date read from a yearly file, or one of the two
estimated fallbacks the source substitutes when the file is unreadable or
has no date column (today's date for the current year, Dec 31 otherwise). -/
inductive LatestResult where
  | actualDate (d : Nat)
  | estimateToday
  | estimateYearEnd (y : Nat)
deriving DecidableEq

/-- The year walk of src/update_instruments_metadata.py
get_latest_date_for_symbol lines 55-133: years are visited newest first; a
year without a matching file is skipped; the first year with a file returns
— the actual max date when the read succeeds and a date column exists, an
estimated fallback date otherwise (lines 87-95 and 116-124). -/
def latest_scan_go (current_year : Nat) (scan : Nat → YearScan) :
    List Nat → Option LatestResult
  | [] => none
  | y :: ys =>
    match scan y with
    | YearScan.absent => latest_scan_go current_year scan ys
    | YearScan.unreadable =>
      some (if y = current_year then LatestResult.estimateToday
            else LatestResult.estimateYearEnd y)
    | YearScan.readableNoDateCol =>
      some (if y = current_year then LatestResult.estimateToday
            else LatestResult.estimateYearEnd y)
    | YearScan.readable ts =>
      some (LatestResult.actualDate (dateOfTs (ts.foldr max 0)))

/-- src/update_instruments_metadata.py get_latest_date_for_symbol: sort the
listed years descending and walk them. -/
def get_latest_date_for_symbol (current_year : Nat) (years : List Nat)
    (scan : Nat → YearScan) : Option LatestResult :=
  latest_scan_go current_year scan (List.insertionSort (fun a b => b ≤ a) years)

/-- The per-instrument update of update_instruments_metadata lines 157-184:
a computed latest date overwrites the recorded boundary; `None` keeps the
existing boundary and surfaces a warning (the returned Bool). -/
def update_boundary (existing : Option LatestResult) (latest : Option LatestResult) :
    Option LatestResult × Bool :=
  match latest with
  | some d => (some d, false)
  | none => (existing, true)

/-
Concrete sample data used by witnesses and counterexamples.
-/

/-- The full canonical column set written by convert_to_parquet. -/
def fullCols : List String :=
  ["symbol", "timestamp", "unix_time", "open", "high", "low", "close", "volume"]

def rowA : Row :=
  { symbol := "EURUSD", timestamp := 86405, unix_time := 86405,
    open_ := 10, high := 12, low := 9, close := 11, volume := 5 }

def rowB : Row :=
  { symbol := "EURUSD", timestamp := 86410, unix_time := 86410,
    open_ := 11, high := 13, low := 10, close := 12, volume := 6 }

/-- A well-formed one-row CSV as the downloader produces it. -/
def goodCsv : RawCsv :=
  { cols := ["timestamp", "open", "high", "low", "close", "volume"],
    rows := [{ ts := some 86405, open_ := 10, high := 12, low := 9, close := 11, volume := 5 }] }

/-- A CSV whose schema lacks the required timestamp column. -/
def badCsv : RawCsv :=
  { cols := ["open", "high", "low", "close", "volume"],
    rows := [{ ts := some 86405, open_ := 10, high := 12, low := 9, close := 11, volume := 5 }] }

/-- Fetch collaborator producing a schema-broken CSV for date 1 and a good
CSV for every other date. -/
def c8_fetch : Nat → FetchOutcome := fun d =>
  if d = 1 then FetchOutcome.csv badCsv else FetchOutcome.csv goodCsv

/-- Fetch collaborator with no CSV (weekend/holiday) for date 1 and a good
CSV for every other date. -/
def c7_fetch : Nat → FetchOutcome := fun d =>
  if d = 1 then FetchOutcome.noCsv else FetchOutcome.csv goodCsv

/-- A daily frame missing the volume column — exactly what
convert_to_parquet produces from a CSV without a volume column. -/
def noVolFrame : PFrame :=
  { cols := ["symbol", "timestamp", "unix_time", "open", "high", "low", "close"],
    rows := [rowA] }

/-- A truncated frame: the first row only of a two-row partition, as left at
the final path by a crash mid-write. -/
def truncFrame : PFrame := { cols := fullCols, rows := [rowA] }

/-- The frame convert_to_parquet produces from goodCsv for symbol EURUSD. -/
def goodFrame : PFrame := { cols := fullCols, rows := [rowA] }

/-- A year store whose only daily partition lacks the volume column. -/
def c10Store : YearStore := { yearly := none, dailies := [(1, noVolFrame)] }

/-- A fresh year store with one two-row daily partition at date 1 (both
rows' timestamps fall on date 1). -/
def c1Store : YearStore := { yearly := none, dailies := [(1, ⟨fullCols, [rowA, rowB]⟩)] }

/-- A fresh year store whose single daily partition is unsorted. -/
def c3Store : YearStore := { yearly := none, dailies := [(1, ⟨fullCols, [rowB, rowA]⟩)] }

def rowD : Row :=
  { symbol := "EURUSD", timestamp := 86420, unix_time := 86420,
    open_ := 10, high := 12, low := 9, close := 11, volume := 7 }

def rowE : Row :=
  { symbol := "EURUSD", timestamp := 86430, unix_time := 86430,
    open_ := 12, high := 14, low := 11, close := 13, volume := 8 }

/-- Same as rowE in every column except volume. -/
def rowF : Row :=
  { symbol := "EURUSD", timestamp := 86430, unix_time := 86430,
    open_ := 12, high := 14, low := 11, close := 13, volume := 9 }

/-- A fresh year store with two daily partitions: both contain the row `r`
in full, and one each of `r1` and `r2`. -/
def twoDailyStore (d1 d2 : Nat) (cols : List String) (r r1 r2 : Row) : YearStore :=
  { yearly := none,
    dailies := [(d1, { cols := cols, rows := [r, r1] }),
                (d2, { cols := cols, rows := [r, r2] })] }

/-
Helper lemmas.
-/

theorem isEmpty_false_of_ne_nil {α : Type} {l : List α} (h : l ≠ []) :
    l.isEmpty = false := by
  cases l with
  | nil => exact absurd rfl h
  | cons a t => rfl

theorem get_last_consolidated_date_some_empty {f : PFrame} (h : f.rows.isEmpty = true) :
    get_last_consolidated_date (some f) = none := by
  unfold get_last_consolidated_date
  simp [h]

theorem get_last_consolidated_date_some_ne {f : PFrame} (h : f.rows ≠ []) :
    get_last_consolidated_date (some f) = some (dateOfTs (maxTs f.rows)) := by
  unfold get_last_consolidated_date
  simp [isEmpty_false_of_ne_nil h]

theorem mem_daily_files_of {st : YearStore} {p : Nat × PFrame} :
    p ∈ daily_files_of st ↔
      p ∈ st.dailies ∧ afterStart (get_last_consolidated_date st.yearly) p.1 = true := by
  unfold daily_files_of get_daily_files_to_process
  rw [(List.perm_insertionSort dailyLE _).mem_iff, List.mem_filter]

theorem process_symbol_year_noop {st : YearStore} (h : daily_files_of st = []) :
    process_symbol_year st = (st, none) := by
  simp [process_symbol_year, h]

theorem process_symbol_year_write {st : YearStore} (hne : daily_files_of st ≠ [])
    (hg : casts_ok st = true) :
    process_symbol_year st =
      ({ st with yearly := some { cols := out_cols_of st, rows := final_rows_of st } },
       some (final_rows_of st).length) := by
  have hEmp : (daily_files_of st).isEmpty = false := by
    cases h : daily_files_of st with
    | nil => exact absurd h hne
    | cons a t => rfl
  simp [process_symbol_year, hEmp, hg]

theorem process_symbol_year_failed {st : YearStore} (hne : daily_files_of st ≠ [])
    (hg : casts_ok st = false) :
    process_symbol_year st = (st, none) := by
  have hEmp : (daily_files_of st).isEmpty = false := by
    cases h : daily_files_of st with
    | nil => exact absurd h hne
    | cons a t => rfl
  simp [process_symbol_year, hEmp, hg]

theorem mem_final_rows_of {st : YearStore} {r : Row} :
    r ∈ final_rows_of st ↔ r ∈ combined_rows st := by
  unfold final_rows_of
  exact mem_final_rows

theorem final_rows_sorted (st : YearStore) :
    List.Chain' (fun a b : Row => a.timestamp ≤ b.timestamp) (final_rows_of st) := by
  have hs : List.Sorted tsLE (sort_rows (combined_rows st)) :=
    List.sorted_insertionSort tsLE (combined_rows st)
  have hsub : List.Sublist (sort_rows (combined_rows st)).dedup (sort_rows (combined_rows st)) :=
    List.dedup_sublist _
  exact List.Pairwise.chain' (List.Pairwise.sublist hsub hs)

theorem backfill_dates_mem_aux :
    ∀ n er ea, ea - er ≤ n → ∀ d, (d ∈ backfill_dates er ea ↔ er ≤ d ∧ d < ea) := by
  intro n
  induction n with
  | zero =>
    intro er ea h d
    rw [backfill_dates.eq_def, if_neg (by omega)]
    simp only [List.not_mem_nil, false_iff]
    omega
  | succ n ih =>
    intro er ea h d
    rw [backfill_dates.eq_def]
    by_cases hlt : er < ea
    · rw [if_pos hlt, List.mem_cons, ih (er + 1) ea (by omega) d]
      omega
    · rw [if_neg hlt]
      simp only [List.not_mem_nil, false_iff]
      omega

theorem backfill_dates_mem (er ea d : Nat) :
    d ∈ backfill_dates er ea ↔ er ≤ d ∧ d < ea :=
  backfill_dates_mem_aux (ea - er) er ea (Nat.le_refl _) d

theorem backfill_dates_head (er ea : Nat) :
    (backfill_dates er ea).head? = if er < ea then some er else none := by
  rw [backfill_dates.eq_def]
  by_cases h : er < ea
  · rw [if_pos h, if_pos h]
    rfl
  · rw [if_neg h, if_neg h]
    rfl

theorem backfill_dates_chain_aux :
    ∀ n er ea, ea - er ≤ n → List.Chain' (fun a b => a < b) (backfill_dates er ea) := by
  intro n
  induction n with
  | zero =>
    intro er ea h
    rw [backfill_dates.eq_def, if_neg (by omega)]
    exact List.chain'_nil
  | succ n ih =>
    intro er ea h
    rw [backfill_dates.eq_def]
    by_cases hlt : er < ea
    · rw [if_pos hlt, List.chain'_cons']
      refine ⟨?_, ih (er + 1) ea (by omega)⟩
      intro y hy
      rw [backfill_dates_head] at hy
      by_cases h2 : er + 1 < ea
      · rw [if_pos h2] at hy
        cases hy
        omega
      · rw [if_neg h2] at hy
        cases hy
    · rw [if_neg hlt]
      exact List.chain'_nil

theorem backfill_dates_chain (er ea : Nat) :
    List.Chain' (fun a b => a < b) (backfill_dates er ea) :=
  backfill_dates_chain_aux (ea - er) er ea (Nat.le_refl _)

theorem lookupDate_insert_ne (store : DStore) (d d' : Nat) (f : PFrame) (h : d' ≠ d) :
    lookupDate (insertDate store d' f) d = lookupDate store d := by
  simp [insertDate, lookupDate, h]

theorem ingest_date_store_cases {fetch : Nat → FetchOutcome} {store : DStore}
    {symbol : String} {d : Nat} {o : Outcome} {store' : DStore}
    (h : ingest_date fetch store symbol d = Except.ok (o, store')) :
    store' = store ∨ ∃ f, store' = insertDate store d f := by
  unfold ingest_date at h
  split at h
  · cases h
    exact Or.inl rfl
  · split at h
    · cases h
      exact Or.inl rfl
    · cases h
      exact Or.inl rfl
    · cases h
      exact Or.inl rfl
    · split at h
      · cases h
        exact Or.inr ⟨_, rfl⟩
      · cases h

theorem ingest_symbol_lookup_none {fetch : Nat → FetchOutcome} {symbol : String}
    (ds : List Nat) (store : DStore) (d : Nat)
    (h0 : lookupDate store d = none) (hd : d ∉ ds) :
    lookupDate (ingest_symbol fetch symbol store ds).1 d = none := by
  induction ds generalizing store with
  | nil => simpa [ingest_symbol]
  | cons a t ih =>
    have hda : a ≠ d := fun hh => hd (hh ▸ List.mem_cons_self a t)
    have hdt : d ∉ t := fun hh => hd (List.mem_cons_of_mem _ hh)
    rw [ingest_symbol]
    cases hcall : ingest_date fetch store symbol a with
    | error e => simpa using h0
    | ok p =>
      obtain ⟨o, store'⟩ := p
      have h0' : lookupDate store' d = none := by
        rcases ingest_date_store_cases hcall with rfl | ⟨f, rfl⟩
        · exact h0
        · rw [lookupDate_insert_ne store d a f hda]
          exact h0
      simpa using ih store' h0' hdt

theorem latest_scan_go_absent (cy : Nat) (scan : Nat → YearScan) (l : List Nat)
    (h : ∀ y ∈ l, scan y = YearScan.absent) : latest_scan_go cy scan l = none := by
  induction l with
  | nil => rfl
  | cons y ys ih =>
    rw [latest_scan_go, h y (List.mem_cons_self _ _)]
    exact ih fun z hz => h z (List.mem_cons_of_mem _ hz)

/-
Claim theorems.
-/

/-- C6: with an empty existingDates set, the backfill dispatch visits
exactly the dates of the half-open interval [earliestRequired, cutoff) —
the cutoff itself excluded — in strictly ascending order, matching a
full-history backfill. -/
theorem compute_gaps_no_history (er cutoff : Nat) :
    (∀ d, d ∈ compute_gaps er [] cutoff ↔ er ≤ d ∧ d < cutoff) ∧
    List.Chain' (fun a b => a < b) (compute_gaps er [] cutoff) := by
  constructor
  · intro d
    exact backfill_dates_mem er cutoff d
  · exact backfill_dates_chain er cutoff

/-- C2: when the daily partition for a date already exists, ingesting that
date again returns AlreadyPresent and leaves the store — hence the
partition's content — unchanged, and the result does not depend on the
fetch collaborator at all (it is never invoked). -/
theorem ingest_idempotent_already_present (fetch fetch' : Nat → FetchOutcome)
    (store : DStore) (symbol : String) (d : Nat)
    (h : (lookupDate store d).isSome = true) :
    ingest_date fetch store symbol d = Except.ok (Outcome.AlreadyPresent, store) ∧
    ingest_date fetch store symbol d = ingest_date fetch' store symbol d := by
  constructor
  · simp [ingest_date, h]
  · simp [ingest_date, h]

/-- C2 witness: a store holding a partition at date 3; re-ingesting date 3
is AlreadyPresent, writes nothing, and two different fetch collaborators
give the same result. -/
theorem ingest_idempotent_already_present_witness :
    ingest_date (fun _ => FetchOutcome.procError) (insertDate [] 3 truncFrame) "EURUSD" 3 =
      Except.ok (Outcome.AlreadyPresent, insertDate [] 3 truncFrame) ∧
    ingest_date (fun _ => FetchOutcome.procError) (insertDate [] 3 truncFrame) "EURUSD" 3 =
      ingest_date (fun _ => FetchOutcome.noCsv) (insertDate [] 3 truncFrame) "EURUSD" 3 :=
  ingest_idempotent_already_present (fun _ => FetchOutcome.procError)
    (fun _ => FetchOutcome.noCsv) (insertDate [] 3 truncFrame) "EURUSD" 3 (by decide)

/-- C7: a date whose fetch yields no CSV or a zero-size CSV is classified
NoData: no partition is written for it, no error escapes, and the run
continues with the remaining dates exactly as if started on them. -/
theorem nodata_tolerance (fetch : Nat → FetchOutcome) (symbol : String) (store : DStore)
    (d : Nat) (ds : List Nat)
    (h0 : lookupDate store d = none)
    (hf : fetch d = FetchOutcome.noCsv ∨ fetch d = FetchOutcome.emptyCsv)
    (hnin : d ∉ ds) :
    ingest_date fetch store symbol d = Except.ok (Outcome.NoData, store) ∧
    ingest_symbol fetch symbol store (d :: ds) =
      ((ingest_symbol fetch symbol store ds).1,
       Outcome.NoData :: (ingest_symbol fetch symbol store ds).2.1,
       (ingest_symbol fetch symbol store ds).2.2) ∧
    lookupDate (ingest_symbol fetch symbol store (d :: ds)).1 d = none := by
  have hstep : ingest_date fetch store symbol d = Except.ok (Outcome.NoData, store) := by
    rcases hf with hf | hf <;> simp [ingest_date, h0, hf]
  have hloop : ingest_symbol fetch symbol store (d :: ds) =
      ((ingest_symbol fetch symbol store ds).1,
       Outcome.NoData :: (ingest_symbol fetch symbol store ds).2.1,
       (ingest_symbol fetch symbol store ds).2.2) := by
    simp only [ingest_symbol, hstep]
  refine ⟨hstep, hloop, ?_⟩
  rw [hloop]
  exact ingest_symbol_lookup_none ds store d h0 hnin

/-- C7 witness: date 1 has no CSV (weekend); ingesting [1, 2] records
NoData for date 1, continues with date 2, and leaves no partition at
date 1. -/
theorem nodata_tolerance_witness :
    ingest_date c7_fetch ([] : DStore) "EURUSD" 1 =
      Except.ok (Outcome.NoData, ([] : DStore)) ∧
    ingest_symbol c7_fetch "EURUSD" ([] : DStore) [1, 2] =
      ((ingest_symbol c7_fetch "EURUSD" ([] : DStore) [2]).1,
       Outcome.NoData :: (ingest_symbol c7_fetch "EURUSD" ([] : DStore) [2]).2.1,
       (ingest_symbol c7_fetch "EURUSD" ([] : DStore) [2]).2.2) ∧
    lookupDate (ingest_symbol c7_fetch "EURUSD" ([] : DStore) [1, 2]).1 1 = none :=
  nodata_tolerance c7_fetch "EURUSD" [] 1 [2] (by decide) (Or.inl (by decide)) (by decide)

/-- C10: consolidation hard-requires the five numeric columns: when any
selected daily file (or the existing yearly file being merged) lacks one of
open, high, low, close, volume, the defensive cast fails, the run aborts in
its error handler without writing, and the store — in particular the
existing yearly partition — is left unchanged; yet the daily normalizer
succeeds on any CSV with a parsable timestamp column regardless of which
numeric columns are present, so its tolerance does not carry over. -/
theorem consolidation_requires_numeric_cols (st : YearStore)
    (hne : daily_files_of st ≠ [])
    (hbad : (∃ p ∈ daily_files_of st, cast_ok p.2 = false) ∨
            ∃ ex, st.yearly = some ex ∧ cast_ok ex = false) :
    process_symbol_year st = (st, none) ∧
    (process_symbol_year st).1.yearly = st.yearly ∧
    (∀ (c : RawCsv) (s : String), "timestamp" ∈ c.cols →
      (∀ r ∈ c.rows, r.ts.isSome = true) →
      ∃ f, convert_to_parquet c s = Except.ok f) := by
  have hg : casts_ok st = false := by
    unfold casts_ok
    rcases hbad with ⟨p, hp, hc⟩ | ⟨ex, hex, hc⟩
    · have h1 : (daily_files_of st).all (fun p => cast_ok p.2) = false :=
        List.all_eq_false.mpr ⟨p, hp, by simp [hc]⟩
      rw [h1, Bool.false_and]
    · rw [hex]
      simp [hc]
  have hmain := process_symbol_year_failed hne hg
  refine ⟨hmain, by rw [hmain], ?_⟩
  intro c s hts hall
  refine ⟨{ cols := out_cols c.cols,
            rows := c.rows.map (fun r =>
              { symbol := s, timestamp := r.ts.getD 0, unix_time := r.ts.getD 0,
                open_ := r.open_, high := r.high, low := r.low,
                close := r.close, volume := r.volume }) }, ?_⟩
  unfold convert_to_parquet
  rw [if_pos hts, if_pos (List.all_eq_true.mpr hall)]

/-- C10 witness: a store whose only daily partition lacks the volume column
aborts without writing, while the normalizer accepts such data. -/
theorem consolidation_requires_numeric_cols_witness :
    process_symbol_year c10Store = (c10Store, none) ∧
    (process_symbol_year c10Store).1.yearly = c10Store.yearly ∧
    (∀ (c : RawCsv) (s : String), "timestamp" ∈ c.cols →
      (∀ r ∈ c.rows, r.ts.isSome = true) →
      ∃ f, convert_to_parquet c s = Except.ok f) :=
  consolidation_requires_numeric_cols c10Store (by decide)
    (Or.inl ⟨(1, noVolFrame), by decide, by decide⟩)

/-- C3: after a consolidation run that completes with a write (reporting a
record count), the written yearly partition satisfies the sort invariant:
every consecutive pair of rows has nondecreasing timestamps. -/
theorem consolidation_sorted (st st' : YearStore) (n : Nat)
    (h : process_symbol_year st = (st', some n)) :
    ∃ f, st'.yearly = some f ∧
      List.Chain' (fun a b : Row => a.timestamp ≤ b.timestamp) f.rows := by
  unfold process_symbol_year at h
  split at h
  · exact absurd (congrArg Prod.snd h) (by simp)
  · split at h
    · refine ⟨{ cols := out_cols_of st, rows := final_rows_of st }, ?_, final_rows_sorted st⟩
      have h1 := congrArg Prod.fst h
      simp only at h1
      rw [← h1]
    · exact absurd (congrArg Prod.snd h) (by simp)

/-- C3 witness: consolidating an unsorted two-row daily partition writes a
sorted yearly partition. -/
theorem consolidation_sorted_witness :
    ∃ f, (process_symbol_year c3Store).1.yearly = some f ∧
      List.Chain' (fun a b : Row => a.timestamp ≤ b.timestamp) f.rows :=
  consolidation_sorted c3Store (process_symbol_year c3Store).1 2 (by decide)

/-- C8 counterexample: in the daily ingest loop only CalledProcessError is
caught, so date 1's CSV lacking the timestamp column makes the SchemaError
escape: the run aborts, and date 2 — whose CSV is good and would have been
Written — is never processed and stays absent, refuting the claim that the
instrument's remaining dates still proceed. -/
theorem schema_error_aborts_daily_loop :
    ingest_symbol c8_fetch "EURUSD" ([] : DStore) [1, 2] =
      ([], [], some SchemaError.missing_timestamp) ∧
    lookupDate (ingest_symbol c8_fetch "EURUSD" ([] : DStore) [1, 2]).1 2 = none ∧
    (∃ f, ingest_date c8_fetch ([] : DStore) "EURUSD" 2 =
      Except.ok (Outcome.Written, insertDate [] 2 f)) := by
  exact ⟨by decide, by decide, ⟨goodFrame, by decide⟩⟩

/-- C8 (amended): a date whose fetched rows lack a parsable timestamp
column fails alone in the backfill loop — which catches every exception and
proceeds with the remaining dates, the failing date leaving no partition —
but in the daily ingest loop the SchemaError propagates and aborts the
instrument's remaining dates. -/
theorem schema_error_isolation_amended (fetch : Nat → FetchOutcome) (symbol : String)
    (store : DStore) (d : Nat) (ds : List Nat) (c : RawCsv) (e : SchemaError)
    (h0 : lookupDate store d = none)
    (hf : fetch d = FetchOutcome.csv c)
    (hconv : convert_to_parquet c symbol = Except.error e) :
    ingest_symbol fetch symbol store (d :: ds) = (store, [], some e) ∧
    ingest_symbol_backfill fetch symbol store (d :: ds) =
      ingest_symbol_backfill fetch symbol store ds := by
  have hstep : ingest_date fetch store symbol d = Except.error e := by
    simp [ingest_date, h0, hf, hconv]
  constructor
  · simp only [ingest_symbol, hstep]
  · have hb : backfill_step fetch symbol store d = store := by
      simp [backfill_step, h0, hf, hconv]
    rw [ingest_symbol_backfill, hb]

/-- C8 amended witness: the schema-broken date 1 aborts the daily loop but
is skipped by the backfill loop, which continues with date 2. -/
theorem schema_error_isolation_amended_witness :
    ingest_symbol c8_fetch "EURUSD" ([] : DStore) [1, 2] =
      (([] : DStore), [], some SchemaError.missing_timestamp) ∧
    ingest_symbol_backfill c8_fetch "EURUSD" ([] : DStore) [1, 2] =
      ingest_symbol_backfill c8_fetch "EURUSD" ([] : DStore) [2] :=
  schema_error_isolation_amended c8_fetch "EURUSD" [] 1 [2] badCsv
    SchemaError.missing_timestamp (by decide) (by decide) (by decide)

/-- C9 counterexample: the instrument's only year, 2023, has a yearly file
listed but unreadable — so no YearlyPartition is readable for any year —
yet get_latest_date_for_symbol substitutes the estimated fallback
Dec 31 2023, and the update loop overwrites the recorded boundary with it
instead of leaving it untouched. -/
theorem unreadable_yearly_overwrites_boundary :
    get_latest_date_for_symbol 2025 [2023] (fun _ => YearScan.unreadable) =
      some (LatestResult.estimateYearEnd 2023) ∧
    update_boundary (some (LatestResult.actualDate 19500))
        (get_latest_date_for_symbol 2025 [2023] (fun _ => YearScan.unreadable)) =
      (some (LatestResult.estimateYearEnd 2023), false) := by
  exact ⟨by decide, by decide⟩

/-- C9 (amended): when no yearly FILE is found at all for any year (every
year's listing is absent), get_latest_date_for_symbol returns None and the
update loop leaves the instrument's recorded boundary untouched and
surfaces a warning; whereas a listed-but-unreadable file is answered with
an estimated fallback date instead. -/
theorem metadata_untouched_no_file (cy : Nat) (years : List Nat)
    (scan : Nat → YearScan) (existing : Option LatestResult)
    (h : ∀ y ∈ years, scan y = YearScan.absent) :
    get_latest_date_for_symbol cy years scan = none ∧
    update_boundary existing (get_latest_date_for_symbol cy years scan) =
      (existing, true) := by
  have hnone : get_latest_date_for_symbol cy years scan = none := by
    unfold get_latest_date_for_symbol
    apply latest_scan_go_absent
    intro y hy
    exact h y ((List.perm_insertionSort (fun a b => b ≤ a) years).mem_iff.mp hy)
  exact ⟨hnone, by rw [hnone]; rfl⟩

/-- C9 amended witness: two years, both without any yearly file; the
boundary is kept and the warning surfaced. -/
theorem metadata_untouched_no_file_witness :
    get_latest_date_for_symbol 2025 [2021, 2022] (fun _ => YearScan.absent) = none ∧
    update_boundary (some (LatestResult.actualDate 19000))
        (get_latest_date_for_symbol 2025 [2021, 2022] (fun _ => YearScan.absent)) =
      (some (LatestResult.actualDate 19000), true) :=
  metadata_untouched_no_file 2025 [2021, 2022] (fun _ => YearScan.absent)
    (some (LatestResult.actualDate 19000)) (by decide)

/-- C5: evaluation at the failing input.  Both writers hand the final
destination path straight to the library writer (`df.to_parquet` in
src/daily_ingest.py line 71, `write_parquet` in src/yearly_consolidation.py
line 233); no temporary location or publish step exists anywhere in the
repository.  A crash after one of two rows therefore leaves a truncated
file at the final path: the path exists, its content differs from the
intended rows, and a daily partition holding the truncated content passes
the existence check, classifying the date AlreadyPresent on the next run. -/
theorem nonatomic_write_partial_observable :
    write_parquet_at [rowA, rowB] (some 1) = some [rowA] ∧
    file_exists (write_parquet_at [rowA, rowB] (some 1)) = true ∧
    write_parquet_at [rowA, rowB] (some 1) ≠ some [rowA, rowB] ∧
    ingest_date (fun _ => FetchOutcome.csv goodCsv) (insertDate [] 5 truncFrame)
        "EURUSD" 5 =
      Except.ok (Outcome.AlreadyPresent, insertDate [] 5 truncFrame) := by
  exact ⟨rfl, rfl, by decide, by decide⟩

/-- C1: consolidation is idempotent.  Under the data-model invariants —
every daily partition is non-empty, its rows' timestamps fall on its
directory date, and all frames carry the five numeric columns — running
process_symbol_year a second time with no new daily partitions selects no
daily files (every daily date is at most the last consolidated date
recomputed from the written yearly file's timestamp column), performs no
write and reports no record count, leaving the store — hence the yearly
partition, row for row, and its record count — identical. -/
theorem consolidation_idempotent (st : YearStore)
    (hdaily : ∀ p ∈ st.dailies, p.2.rows ≠ [] ∧ ∀ r ∈ p.2.rows, dateOfTs r.timestamp = p.1)
    (hcast : ∀ p ∈ st.dailies, cast_ok p.2 = true)
    (hycast : ∀ ex, st.yearly = some ex → cast_ok ex = true) :
    process_symbol_year (process_symbol_year st).1 = ((process_symbol_year st).1, none) ∧
    daily_files_of (process_symbol_year st).1 = [] := by
  by_cases hA : daily_files_of st = []
  · have h1 : process_symbol_year st = (st, none) := process_symbol_year_noop hA
    rw [h1]
    exact ⟨process_symbol_year_noop hA, hA⟩
  · have hg : casts_ok st = true := by
      unfold casts_ok
      have h1 : (daily_files_of st).all (fun p => cast_ok p.2) = true :=
        List.all_eq_true.mpr (fun p hp => hcast p (mem_daily_files_of.mp hp).1)
      have h2 : (match st.yearly with | none => true | some ex => cast_ok ex) = true := by
        cases hy : st.yearly with
        | none => rfl
        | some ex => exact hycast ex hy
      rw [h1, h2]
      rfl
    have hwrite := process_symbol_year_write hA hg
    have hfne : final_rows_of st ≠ [] := by
      obtain ⟨p, hp⟩ := List.exists_mem_of_ne_nil _ hA
      obtain ⟨hrne, hdate⟩ := hdaily p (mem_daily_files_of.mp hp).1
      obtain ⟨r, hr⟩ := List.exists_mem_of_ne_nil _ hrne
      have hmem : r ∈ final_rows_of st := by
        rw [mem_final_rows_of]
        unfold combined_rows
        exact List.mem_append.mpr (Or.inr (List.mem_flatten.mpr
          ⟨p.2.rows, List.mem_map.mpr ⟨p, hp, rfl⟩, hr⟩))
      intro hcontra
      rw [hcontra] at hmem
      cases hmem
    have hbound : ∀ p ∈ st.dailies, p.1 ≤ dateOfTs (maxTs (final_rows_of st)) := by
      intro p hp
      by_cases hsel : afterStart (get_last_consolidated_date st.yearly) p.1 = true
      · obtain ⟨hrne, hdate⟩ := hdaily p hp
        obtain ⟨r, hr⟩ := List.exists_mem_of_ne_nil _ hrne
        have hpf : p ∈ daily_files_of st := mem_daily_files_of.mpr ⟨hp, hsel⟩
        have hmem : r ∈ final_rows_of st := by
          rw [mem_final_rows_of]
          unfold combined_rows
          exact List.mem_append.mpr (Or.inr (List.mem_flatten.mpr
            ⟨p.2.rows, List.mem_map.mpr ⟨p, hpf, rfl⟩, hr⟩))
        calc p.1 = dateOfTs r.timestamp := (hdate r hr).symm
          _ ≤ dateOfTs (maxTs (final_rows_of st)) := dateOfTs_mono (le_maxTs hmem)
      · cases hy : st.yearly with
        | none =>
          exfalso
          apply hsel
          have hnone : get_last_consolidated_date st.yearly = none := by
            rw [hy]
            rfl
          rw [hnone]
          rfl
        | some ex =>
          by_cases hre : ex.rows.isEmpty = true
          · exfalso
            apply hsel
            have hnone : get_last_consolidated_date st.yearly = none := by
              rw [hy]
              exact get_last_consolidated_date_some_empty hre
            rw [hnone]
            rfl
          · have hexrne : ex.rows ≠ [] := by
              intro hc
              exact hre (by rw [hc]; rfl)
            have hlast : get_last_consolidated_date st.yearly =
                some (dateOfTs (maxTs ex.rows)) := by
              rw [hy]
              exact get_last_consolidated_date_some_ne hexrne
            rw [hlast] at hsel
            have hple : p.1 ≤ dateOfTs (maxTs ex.rows) := by
              simp [afterStart] at hsel
              omega
            have hsub : ∀ r ∈ ex.rows, r ∈ final_rows_of st := by
              intro r hr
              rw [mem_final_rows_of]
              unfold combined_rows existing_rows
              rw [hy]
              exact List.mem_append.mpr (Or.inl hr)
            calc p.1 ≤ dateOfTs (maxTs ex.rows) := hple
              _ ≤ dateOfTs (maxTs (final_rows_of st)) :=
                  dateOfTs_mono (maxTs_le_maxTs hexrne hsub)
    have hst1y : (process_symbol_year st).1.yearly =
        some { cols := out_cols_of st, rows := final_rows_of st } := by
      rw [hwrite]
    have hst1d : (process_symbol_year st).1.dailies = st.dailies := by
      rw [hwrite]
    have hlast1 : get_last_consolidated_date (process_symbol_year st).1.yearly =
        some (dateOfTs (maxTs (final_rows_of st))) := by
      rw [hst1y]
      exact get_last_consolidated_date_some_ne hfne
    have hff : daily_files_of (process_symbol_year st).1 = [] := by
      unfold daily_files_of
      rw [hst1d, hlast1]
      unfold get_daily_files_to_process
      have hfil : st.dailies.filter
          (fun p => afterStart (some (dateOfTs (maxTs (final_rows_of st)))) p.1) = [] := by
        rw [List.filter_eq_nil_iff]
        intro p hp
        have hb := hbound p hp
        simp [afterStart]
        omega
      rw [hfil]
      rfl
    exact ⟨process_symbol_year_noop hff, hff⟩

/-- C1 witness: a fresh store with one two-row daily partition; consolidate
once, then the second run selects nothing and changes nothing. -/
theorem consolidation_idempotent_witness :
    process_symbol_year (process_symbol_year c1Store).1 =
      ((process_symbol_year c1Store).1, none) ∧
    daily_files_of (process_symbol_year c1Store).1 = [] :=
  consolidation_idempotent c1Store (by decide) (by decide) (fun ex h => nomatch h)

/-- C4: deduplication is by full-row equality.  Two daily partitions each
containing the fully identical row `r`, plus one each of `r1` and `r2` which
agree in every column — timestamp included — except volume: the
consolidated yearly partition keeps exactly one copy of `r` and both of
`r1` and `r2`, three rows in total. -/
theorem dedup_full_row_equality (d1 d2 : Nat) (cols : List String) (r r1 r2 : Row)
    (hcols : requiredNumericCols.all (fun c => cols.contains c) = true)
    (hne1 : r ≠ r1) (hne2 : r ≠ r2)
    (hsym : r1.symbol = r2.symbol) (hts : r1.timestamp = r2.timestamp)
    (hut : r1.unix_time = r2.unix_time) (hop : r1.open_ = r2.open_)
    (hhi : r1.high = r2.high) (hlo : r1.low = r2.low) (hcl : r1.close = r2.close)
    (hvol : r1.volume ≠ r2.volume) :
    ∃ f, (process_symbol_year (twoDailyStore d1 d2 cols r r1 r2)).1.yearly = some f ∧
      f.rows.count r = 1 ∧ f.rows.count r1 = 1 ∧ f.rows.count r2 = 1 ∧
      f.rows.length = 3 := by
  have h12 : r1 ≠ r2 := fun h => hvol (congrArg Row.volume h)
  set st := twoDailyStore d1 d2 cols r r1 r2 with hst
  have hpermfiles : List.Perm (daily_files_of st) st.dailies := by
    unfold daily_files_of get_daily_files_to_process
    have h1 : get_last_consolidated_date st.yearly = none := rfl
    rw [h1]
    have h2 : st.dailies.filter (fun p => afterStart none p.1) = st.dailies :=
      List.filter_eq_self.mpr (fun a _ => rfl)
    rw [h2]
    exact List.perm_insertionSort dailyLE st.dailies
  have hflat : List.Perm ((daily_files_of st).map (fun p => p.2.rows)).flatten
      [r, r1, r, r2] := by
    have h3 : List.Perm ((daily_files_of st).map (fun p => p.2.rows)) [[r, r1], [r, r2]] :=
      hpermfiles.map (fun p => p.2.rows)
    simpa using h3.flatten
  have hcomb : List.Perm (combined_rows st) [r, r1, r, r2] := by
    unfold combined_rows existing_rows
    simpa using hflat
  have hfinal : List.Perm (final_rows_of st) [r, r1, r, r2].dedup := by
    unfold final_rows_of
    exact ((List.perm_insertionSort tsLE (combined_rows st)).trans hcomb).dedup
  have hd : [r, r1, r, r2].dedup = [r1, r, r2] := by
    rw [List.dedup_cons_of_mem (by simp),
        List.dedup_cons_of_not_mem (by simp [Ne.symm hne1, h12]),
        List.dedup_cons_of_not_mem (by simp [hne2]),
        List.dedup_cons_of_not_mem (by simp),
        List.dedup_nil]
  have hperm3 : List.Perm (final_rows_of st) [r1, r, r2] := hd ▸ hfinal
  have hne : daily_files_of st ≠ [] := by
    intro hc
    have hl := hpermfiles.length_eq
    rw [hc] at hl
    simp [hst, twoDailyStore] at hl
  have hg : casts_ok st = true := by
    unfold casts_ok
    have h1 : (daily_files_of st).all (fun p => cast_ok p.2) = true := by
      rw [List.all_eq_true]
      intro p hp
      have hpm : p ∈ st.dailies := hpermfiles.mem_iff.mp hp
      have hcases : p = (d1, ({ cols := cols, rows := [r, r1] } : PFrame)) ∨
          p = (d2, ({ cols := cols, rows := [r, r2] } : PFrame)) := by
        simpa [hst, twoDailyStore] using hpm
      rcases hcases with rfl | rfl <;> exact hcols
    rw [h1]
    rfl
  have hwrite := process_symbol_year_write hne hg
  refine ⟨{ cols := out_cols_of st, rows := final_rows_of st }, by rw [hwrite], ?_, ?_, ?_, ?_⟩
  · rw [List.Perm.count_eq hperm3]
    simp [List.count_cons, hne1, hne2, Ne.symm hne1]
  · rw [List.Perm.count_eq hperm3]
    simp [List.count_cons, Ne.symm hne1, h12]
  · rw [List.Perm.count_eq hperm3]
    simp [List.count_cons, Ne.symm hne2, Ne.symm h12]
  · rw [hperm3.length_eq]
    rfl

/-- C4 witness: rowE and rowF differ only in volume; rowD is duplicated
across the two partitions; the consolidated result has three rows, one of
each. -/
theorem dedup_full_row_equality_witness :
    ∃ f, (process_symbol_year (twoDailyStore 1 2 fullCols rowD rowE rowF)).1.yearly =
        some f ∧
      f.rows.count rowD = 1 ∧ f.rows.count rowE = 1 ∧ f.rows.count rowF = 1 ∧
      f.rows.length = 3 :=
  dedup_full_row_equality 1 2 fullCols rowD rowE rowF (by decide) (by decide) (by decide)
    (by decide) (by decide) (by decide) (by decide) (by decide) (by decide) (by decide)
    (by decide)
